import Mathlib

/-!
Verification development for the micromeda-server repository.

The development shallowly embeds the cache, resolution, codec, token and
upload logic of the three source files:

- utils.py: the allowed_file extension check (and path helpers, out of
  scope here);
- cache.py: cache_result (stores a serialized result in redis with a
  time-to-live) and get_result_cached_or_default (resolution precedence);
- micromeda-server.py: its own local cache_result (stores with no
  time-to-live), get_result_from_cache, get_result_cached_or_default,
  the upload route body and the get_fasta route resolution call.

External collaborators (redis, pandas msgpack, pygenprop serialization,
uuid4) are embedded by their documented contracts: redis is a key-value
store with optional per-entry expiry and a clock, the pandas msgpack pair
round-trips dataframe triples and raises on structurally invalid input,
and uuid4 forces the version and variant bits of a 128-bit random draw.
Python exceptions are embedded as Except values that propagate exactly
where the source has no handler.
-/

/-- pandas DataFrame, abstracted to its column labels and integer cells.
Only equality and the column list are observed by the embedded code. -/
structure DataFrame where
  columns : List String
  rows : List (List Int)
deriving DecidableEq

/-- Error raised by a deserializer on structurally invalid input
(wrong format, truncated, or type mismatch). -/
inductive DecodeError where
  | invalidFormat : Nat → DecodeError
deriving DecidableEq

/-- Opaque serialized bytes stored in redis. A frames blob is what
pd.to_msgpack(None, f1, f2, f3) writes; a pygen blob is what pygenprop
to_serialization writes; corrupt stands for any structurally invalid
byte string. -/
inductive Blob where
  | frames : DataFrame → DataFrame → DataFrame → Blob
  | pygen : DataFrame → DataFrame → DataFrame → Blob
  | corrupt : Nat → Blob
deriving DecidableEq

/-- The genome properties ontology tree, abstracted to its property
identifiers: the embedded cache code never inspects it, it only binds a
reference to it. -/
structure GenomePropertiesTree where
  props : List String
deriving DecidableEq

/-- GenomePropertiesResultsWithMatches: per-sample assignment tables
(property-level, step-level and step-match) plus a reference to the tree
object it was built against. The tree field type is a parameter because
Python is dynamically typed and one route passes a non-tree object. -/
structure GenomePropertiesResultsWithMatches (τ : Type) where
  property_results : DataFrame
  step_results : DataFrame
  step_matches : DataFrame
  tree : τ
  sample_names : List String
deriving DecidableEq

/-- Error raised by the extraction collaborator
(load_assignment_caches_from_database_with_matches) on a bad artifact. -/
inductive ExtractionError where
  | malformed : Nat → ExtractionError
deriving DecidableEq

/-- Response value produced by the upload route: either the JSON body
with the result key, or the 404 response with body Upload failed. -/
inductive UploadResponse where
  | resultKey : String → UploadResponse
  | uploadFailed404 : UploadResponse
deriving DecidableEq

deriving instance DecidableEq for Except

/-- One redis entry: key, value and optional absolute expiry instant. -/
structure RedisEntry where
  key : String
  value : Blob
  expireAt : Option Nat
deriving DecidableEq

/-- The redis store: most recent SET first. -/
abbrev RedisStore := List RedisEntry

/-- redis SET with optional ex time-to-live, at clock instant now. -/
def redisSet (store : RedisStore) (key : String) (value : Blob)
    (ex : Option Nat) (now : Nat) : RedisStore :=
  { key := key, value := value, expireAt := ex.map (fun ttl => now + ttl) } :: store

/-- redis GET at clock instant now: returns the value if the key is
present and not expired; an entry whose time-to-live has elapsed is
treated as absent. -/
def redisGet (store : RedisStore) (key : String) (now : Nat) : Option Blob :=
  match store.find? (fun e => e.key == key) with
  | some e =>
    match e.expireAt with
    | none => some e.value
    | some t => if now < t then some e.value else none
  | none => none

/-- Bits cleared by Python uuid.UUID when version=4 is requested:
the two variant bits and the four version bits. -/
def uuidClearMask : Nat := 0xc000 <<< 48 ||| 0xf000 <<< 64

/-- Bits set by Python uuid.UUID when version=4 is requested:
variant 10 and version 0100. -/
def uuidSetMask : Nat := 0x8000 <<< 48 ||| 4 <<< 76

/-- The bit positions of a uuid4 that survive from the random draw. -/
def uuidKeepMask : Nat := (2 ^ 128 - 1) - uuidClearMask

/-- The 128-bit integer of uuid.uuid4() as a function of the 16 random
bytes r drawn from os.urandom: the variant and version bits of the draw
are overwritten. -/
def uuid4int (r : Nat) : Nat := ((r % 2 ^ 128) &&& uuidKeepMask) ||| uuidSetMask

/-- Lowercase hexadecimal digit character for a value below 16. -/
def hexDigitChar (n : Nat) : Char :=
  if n < 10 then Char.ofNat (48 + n) else Char.ofNat (87 + n)

/-- The k least significant hexadecimal digits of n, most significant
first, as lowercase characters. -/
def hexDigits : Nat → Nat → List Char
  | 0, _ => []
  | k + 1, n => hexDigits k (n / 16) ++ [hexDigitChar (n % 16)]

/-- 32-digit zero-padded lowercase hexadecimal rendering, as in the
hex attribute of a Python UUID. -/
def hex32 (n : Nat) : List Char := hexDigits 32 n

/-- uuid.uuid4().hex as a function of the 16 random bytes drawn. -/
def uuid4hex (r : Nat) : String := String.mk (hex32 (uuid4int r))

/-- pd.to_msgpack(None, f1, f2, f3): serializes three dataframes into
one blob. -/
def pdToMsgpack (p s m : DataFrame) : Blob := Blob.frames p s m

/-- pd.read_msgpack: recovers the dataframes written by pd.to_msgpack
and raises on any other input. -/
def pdReadMsgpack : Blob → Except DecodeError (DataFrame × DataFrame × DataFrame)
  | Blob.frames p s m => Except.ok (p, s, m)
  | Blob.pygen _ _ _ => Except.error (DecodeError.invalidFormat 1)
  | Blob.corrupt n => Except.error (DecodeError.invalidFormat n)

/-- pygenprop result.to_serialization(): serializes the three assignment
tables of a results object. -/
def toSerialization {τ : Type} (result : GenomePropertiesResultsWithMatches τ) : Blob :=
  Blob.pygen result.property_results result.step_results result.step_matches

/-- pygenprop load_results_from_serialization: rebuilds a results object
from a to_serialization blob and a supplied tree, raising on any other
input. -/
def loadResultsFromSerialization {τ : Type} (b : Blob) (properties_tree : τ) :
    Except DecodeError (GenomePropertiesResultsWithMatches τ) :=
  match b with
  | Blob.pygen p s m => Except.ok ⟨p, s, m, properties_tree, p.columns⟩
  | Blob.frames _ _ _ => Except.error (DecodeError.invalidFormat 1)
  | Blob.corrupt n => Except.error (DecodeError.invalidFormat n)

/-- Python str.lower on one character, for the ASCII range the source
compares against. -/
def pyLower (c : Char) : Char :=
  if 'A' ≤ c ∧ c ≤ 'Z' then Char.ofNat (c.toNat + 32) else c

/-- Splits a character list at its last dot: some (before, after) when a
dot occurs, none otherwise. -/
def splitLastDot : List Char → Option (List Char × List Char)
  | [] => none
  | c :: rest =>
    match splitLastDot rest with
    | some (a, b) => some (c :: a, b)
    | none => if c = '.' then some ([], rest) else none

/-- Python filename.rsplit(sep, 1) for a single-character dot separator:
at most one split, taken from the right. -/
def pyRsplitDot1 (s : List Char) : List (List Char) :=
  match splitLastDot s with
  | some (a, b) => [a, b]
  | none => [s]

/-- The upload extension allow-list of utils.py and micromeda-server.py. -/
def allowed_extensions : List (List Char) :=
  [String.data "micro", String.data "sqlite", String.data "sqlite3"]

/-- utils.py / micromeda-server.py allowed_file: the filename contains a
dot and its final dot-separated suffix, lowercased, is in the allow-list. -/
def allowed_file (filename : String) : Bool :=
  filename.data.contains '.' &&
    allowed_extensions.contains (((pyRsplitDot1 filename.data).getD 1 []).map pyLower)

/-- cache.py cache_result: serializes the result with to_serialization,
draws a uuid4 key and stores the blob with ex equal to cache_ttl (the
source defaults cache_ttl to 3600; here it is passed explicitly).
Returns the key and the updated store. -/
def cachepy_cache_result {τ : Type} (result : GenomePropertiesResultsWithMatches τ)
    (redis_cache : RedisStore) (cache_ttl : Nat) (rand now : Nat) : String × RedisStore :=
  let key := uuid4hex rand
  let data := toSerialization result
  (key, redisSet redis_cache key data (some cache_ttl) now)

/-- cache.py get_result_cached_or_default: if results_key is truthy, look
it up and decode on a hit (the decode exception propagates, there is no
handler), return absent on a miss; otherwise return the default when
present, else absent. The return carries a sum because Python returns
either the decoded object or the default object. -/
def cachepy_get_result_cached_or_default {τ ρ : Type} (redis_cache : RedisStore)
    (properties_tree : τ) (results_key : Option String) (default_results : Option ρ)
    (now : Nat) :
    Except DecodeError (Option (GenomePropertiesResultsWithMatches τ ⊕ ρ)) :=
  let fallback : Except DecodeError (Option (GenomePropertiesResultsWithMatches τ ⊕ ρ)) :=
    match default_results with
    | some d => Except.ok (some (Sum.inr d))
    | none => Except.ok none
  match results_key with
  | none => fallback
  | some k =>
    if k = "" then fallback
    else
      match redisGet redis_cache k now with
      | some cached_results =>
        match loadResultsFromSerialization cached_results properties_tree with
        | Except.ok r => Except.ok (some (Sum.inl r))
        | Except.error e => Except.error e
      | none => Except.ok none

/-- micromeda-server.py class GenomePropertiesResultsWithMatchesCached:
rebinds three stored frames to a supplied tree object and recomputes
sample_names from the property table columns. -/
def GenomePropertiesResultsWithMatchesCached {τ : Type}
    (property_results_frame step_results_frame step_matches_frame : DataFrame)
    (properties_tree : τ) : GenomePropertiesResultsWithMatches τ :=
  { property_results := property_results_frame
    step_results := step_results_frame
    step_matches := step_matches_frame
    tree := properties_tree
    sample_names := property_results_frame.columns }

/-- micromeda-server.py cache_result: serializes the three result frames
with pd.to_msgpack, draws a uuid4 key and stores the blob with no
expiry argument, so the entry has no time-to-live. -/
def server_cache_result {τ : Type} (result : GenomePropertiesResultsWithMatches τ)
    (redis_cache : RedisStore) (rand now : Nat) : String × RedisStore :=
  let key := uuid4hex rand
  let data := pdToMsgpack result.property_results result.step_results result.step_matches
  (key, redisSet redis_cache key data none now)

/-- micromeda-server.py get_result_from_cache: on a store hit, decode
with pd.read_msgpack (the exception propagates, there is no handler) and
rebind to the supplied tree; on a miss return absent. -/
def server_get_result_from_cache {τ : Type} (key : String) (redis_cache : RedisStore)
    (properties_tree : τ) (now : Nat) :
    Except DecodeError (Option (GenomePropertiesResultsWithMatches τ)) :=
  match redisGet redis_cache key now with
  | some cached_results =>
    match pdReadMsgpack cached_results with
    | Except.ok (p, s, m) =>
      Except.ok (some (GenomePropertiesResultsWithMatchesCached p s m properties_tree))
    | Except.error e => Except.error e
  | none => Except.ok none

/-- micromeda-server.py get_result_cached_or_default: if results_key is
truthy, delegate to get_result_from_cache; otherwise return the default
when present, else absent. -/
def server_get_result_cached_or_default {τ ρ : Type} (redis_cache : RedisStore)
    (properties_tree : τ) (results_key : Option String) (default_results : Option ρ)
    (now : Nat) :
    Except DecodeError (Option (GenomePropertiesResultsWithMatches τ ⊕ ρ)) :=
  let fallback : Except DecodeError (Option (GenomePropertiesResultsWithMatches τ ⊕ ρ)) :=
    match default_results with
    | some d => Except.ok (some (Sum.inr d))
    | none => Except.ok none
  match results_key with
  | none => fallback
  | some k =>
    if k = "" then fallback
    else
      match server_get_result_from_cache k redis_cache properties_tree now with
      | Except.ok (some r) => Except.ok (some (Sum.inl r))
      | Except.ok none => Except.ok none
      | Except.error e => Except.error e

/-- The per-app configuration entries the embedded routes read. -/
structure AppConfig where
  UPLOAD_FOLDER : String
  PROPERTIES_TREE : GenomePropertiesTree
  DEFAULT_RESULTS : Option (GenomePropertiesResultsWithMatches GenomePropertiesTree)

/-- Server-side mutable state touched by the upload route: the redis
store and the set of files present in the uploads area. -/
structure ServerState where
  redis : RedisStore
  files : List String
deriving DecidableEq

/-- The resolution call of the get_fasta route: the source passes the
DEFAULT_RESULTS config object as the properties_tree argument (and also
as default_results). -/
def server_get_fasta_resolve (cfg : AppConfig) (redis_cache : RedisStore)
    (result_key : Option String) (now : Nat) :
    Except DecodeError (Option
      (GenomePropertiesResultsWithMatches
          (Option (GenomePropertiesResultsWithMatches GenomePropertiesTree))
        ⊕ GenomePropertiesResultsWithMatches GenomePropertiesTree)) :=
  server_get_result_cached_or_default redis_cache cfg.DEFAULT_RESULTS result_key
    cfg.DEFAULT_RESULTS now

/-- micromeda-server.py upload route body. secure_filename (werkzeug) and
the extraction collaborator are passed in. The source saves the uploaded
file, runs extraction, removes the file, then caches the result; an
extraction exception propagates before os.remove runs. -/
def server_upload (cfg : AppConfig) (secure_filename : String → String)
    (extract : String → GenomePropertiesTree →
      Except ExtractionError (GenomePropertiesResultsWithMatches GenomePropertiesTree))
    (filename : String) (rand now : Nat) (st : ServerState) :
    Except ExtractionError UploadResponse × ServerState :=
  if allowed_file filename then
    let out_path := cfg.UPLOAD_FOLDER ++ "/" ++ secure_filename filename
    let files_after_save := out_path :: st.files
    match extract out_path cfg.PROPERTIES_TREE with
    | Except.error e => (Except.error e, ⟨st.redis, files_after_save⟩)
    | Except.ok result =>
      let files_after_remove := files_after_save.erase out_path
      let key_store := server_cache_result result st.redis rand now
      (Except.ok (UploadResponse.resultKey key_store.1),
       ⟨key_store.2, files_after_remove⟩)
  else
    (Except.ok UploadResponse.uploadFailed404, st)

/-! ## Concrete objects used by witnesses and counterexamples -/

/-- A tiny concrete dataframe with one sample column. -/
def sampleFrame : DataFrame := ⟨["s1"], [[1]]⟩

/-- A tiny concrete ontology tree. -/
def sampleTree : GenomePropertiesTree := ⟨["GenProp0001"]⟩

/-- A tiny concrete results object bound to sampleTree. -/
def sampleResult : GenomePropertiesResultsWithMatches GenomePropertiesTree :=
  ⟨sampleFrame, sampleFrame, sampleFrame, sampleTree, ["s1"]⟩

/-- A concrete app configuration with no default results. -/
def cfg0 : AppConfig := ⟨"/uploads", sampleTree, none⟩

/-- A store holding one structurally invalid blob under key k. -/
def corruptStore : RedisStore := [⟨"k", Blob.corrupt 0, none⟩]

/-- A store holding one well-formed msgpack blob under key k. -/
def framesStore : RedisStore := [⟨"k", Blob.frames sampleFrame sampleFrame sampleFrame, none⟩]

/-! ## Lemmas about the last-dot split -/

theorem splitLastDot_eq_none (s : List Char) : splitLastDot s = none ↔ '.' ∉ s := by
  induction s with
  | nil => simp [splitLastDot]
  | cons c rest ih =>
    cases h : splitLastDot rest with
    | some p =>
      have hmem : '.' ∈ rest := by
        by_contra hn
        exact absurd (ih.mpr hn) (by simp [h])
      simp [splitLastDot, h, hmem]
    | none =>
      have hnot : '.' ∉ rest := ih.mp h
      by_cases hc : c = '.'
      · simp [splitLastDot, h, hc]
      · simp [splitLastDot, h, hc, hnot, Ne.symm hc]

theorem splitLastDot_eq_some (s a b : List Char) :
    splitLastDot s = some (a, b) ↔ s = a ++ '.' :: b ∧ '.' ∉ b := by
  induction s generalizing a b with
  | nil => simp [splitLastDot]
  | cons c rest ih =>
    cases h : splitLastDot rest with
    | some p =>
      obtain ⟨a', b'⟩ := p
      have hrest : rest = a' ++ '.' :: b' ∧ '.' ∉ b' := (ih a' b').mp h
      constructor
      · intro heq
        simp [splitLastDot, h] at heq
        obtain ⟨ha, hb⟩ := heq
        subst ha
        subst hb
        exact ⟨by simp [hrest.1], hrest.2⟩
      · rintro ⟨heq, hnb⟩
        cases a with
        | nil =>
          simp at heq
          obtain ⟨hc, hr⟩ := heq
          subst hr
          have : '.' ∈ rest := by
            have h1 := hrest.1
            rw [h1]
            simp
          exact absurd this hnb
        | cons c' a'' =>
          simp at heq
          obtain ⟨hcc, hr⟩ := heq
          have hsplit : splitLastDot rest = some (a'', b) := (ih a'' b).mpr ⟨hr, hnb⟩
          rw [h] at hsplit
          simp at hsplit
          obtain ⟨ha2, hb2⟩ := hsplit
          subst hcc
          simp [splitLastDot, h, ha2, hb2]
    | none =>
      have hnot : '.' ∉ rest := (splitLastDot_eq_none rest).mp h
      by_cases hc : c = '.'
      · subst hc
        constructor
        · intro heq
          simp [splitLastDot, h] at heq
          obtain ⟨ha, hb⟩ := heq
          subst ha
          subst hb
          exact ⟨rfl, hnot⟩
        · rintro ⟨heq, hnb⟩
          cases a with
          | nil =>
            simp at heq
            subst heq
            simp [splitLastDot, h]
          | cons c' a'' =>
            simp at heq
            obtain ⟨hcc, hr⟩ := heq
            have : '.' ∈ rest := by
              rw [hr]
              simp
            exact absurd this hnot
      · constructor
        · intro heq
          simp [splitLastDot, h, hc] at heq
        · rintro ⟨heq, hnb⟩
          cases a with
          | nil =>
            simp at heq
            exact absurd heq.1 hc
          | cons c' a'' =>
            simp at heq
            have : '.' ∈ rest := by
              rw [heq.2]
              simp
            exact absurd this hnot

/-- Claim C6: the upload allow-list check returns true if and only if the
filename contains a dot and its final dot-separated suffix, lowercased,
is micro, sqlite or sqlite3. -/
theorem allowed_file_correct (f : String) :
    allowed_file f = true ↔
      ∃ a b : List Char, f.data = a ++ '.' :: b ∧ '.' ∉ b ∧
        (b.map pyLower = String.data "micro" ∨ b.map pyLower = String.data "sqlite" ∨
          b.map pyLower = String.data "sqlite3") := by
  rw [allowed_file, Bool.and_eq_true]
  constructor
  · rintro ⟨hc, hm⟩
    have hdot : '.' ∈ f.data := by
      have := List.elem_iff.mp hc
      simpa using this
    cases h2 : splitLastDot f.data with
    | none => exact absurd ((splitLastDot_eq_none f.data).mp h2) (by simp [hdot])
    | some p =>
      obtain ⟨a, b⟩ := p
      obtain ⟨hs, hnb⟩ := (splitLastDot_eq_some f.data a b).mp h2
      refine ⟨a, b, hs, hnb, ?_⟩
      rw [pyRsplitDot1, h2] at hm
      simp [allowed_extensions] at hm
      rcases hm with h | h | h
      · exact Or.inl h
      · exact Or.inr (Or.inl h)
      · exact Or.inr (Or.inr h)
  · rintro ⟨a, b, hs, hnb, hdisj⟩
    have h2 : splitLastDot f.data = some (a, b) :=
      (splitLastDot_eq_some f.data a b).mpr ⟨hs, hnb⟩
    constructor
    · have : '.' ∈ f.data := by
        rw [hs]
        simp
      exact List.elem_iff.mpr this
    · rw [pyRsplitDot1, h2]
      simp [allowed_extensions]
      rcases hdisj with h | h | h
      · exact Or.inl h
      · exact Or.inr (Or.inl h)
      · exact Or.inr (Or.inr h)

/-- Witness for claim C6 at a concrete mixed-case filename. -/
theorem allowed_file_correct_witness : allowed_file "A.SQLite3" = true :=
  (allowed_file_correct "A.SQLite3").mpr
    ⟨['A'], String.data "SQLite3", by decide, by decide, by decide⟩

/-- Claim C1: resolution precedence of get_result_cached_or_default, in
both cache.py and micromeda-server.py. A truthy requested token is looked
up in the store: on a hit the decoded stored result is returned, on a
miss the result is absent and never falls back to the default; with no
truthy token, a present default is returned unchanged, else the result
is absent. -/
theorem resolution_precedence (τ ρ : Type) (store : RedisStore) (tree : τ)
    (default_results : Option ρ) (now : Nat) :
    (∀ k p s m, k ≠ "" → redisGet store k now = some (Blob.frames p s m) →
      server_get_result_cached_or_default store tree (some k) default_results now
        = Except.ok (some (Sum.inl (GenomePropertiesResultsWithMatchesCached p s m tree))))
    ∧ (∀ k, k ≠ "" → redisGet store k now = none →
      server_get_result_cached_or_default store tree (some k) default_results now
        = Except.ok none)
    ∧ (∀ d, default_results = some d →
      server_get_result_cached_or_default store tree none default_results now
        = Except.ok (some (Sum.inr d)))
    ∧ (default_results = none →
      server_get_result_cached_or_default store tree none default_results now
        = Except.ok none)
    ∧ (∀ k p s m, k ≠ "" → redisGet store k now = some (Blob.pygen p s m) →
      cachepy_get_result_cached_or_default store tree (some k) default_results now
        = Except.ok (some (Sum.inl ⟨p, s, m, tree, p.columns⟩)))
    ∧ (∀ k, k ≠ "" → redisGet store k now = none →
      cachepy_get_result_cached_or_default store tree (some k) default_results now
        = Except.ok none)
    ∧ (∀ d, default_results = some d →
      cachepy_get_result_cached_or_default store tree none default_results now
        = Except.ok (some (Sum.inr d)))
    ∧ (default_results = none →
      cachepy_get_result_cached_or_default store tree none default_results now
        = Except.ok none) := by
  refine ⟨?_, ?_, ?_, ?_, ?_, ?_, ?_, ?_⟩
  · intro k p s m hk hget
    simp [server_get_result_cached_or_default, server_get_result_from_cache, hk, hget,
      pdReadMsgpack]
  · intro k hk hget
    simp [server_get_result_cached_or_default, server_get_result_from_cache, hk, hget]
  · intro d hd
    simp [server_get_result_cached_or_default, hd]
  · intro hd
    simp [server_get_result_cached_or_default, hd]
  · intro k p s m hk hget
    simp [cachepy_get_result_cached_or_default, hk, hget, loadResultsFromSerialization]
  · intro k hk hget
    simp [cachepy_get_result_cached_or_default, hk, hget]
  · intro d hd
    simp [cachepy_get_result_cached_or_default, hd]
  · intro hd
    simp [cachepy_get_result_cached_or_default, hd]

/-- Witness for claim C1: a stored token resolves to the decoded stored
result even though a default is configured, and a never-stored token
resolves to absent, not to the default. -/
theorem resolution_precedence_witness :
    server_get_result_cached_or_default framesStore (0 : Nat) (some "k") (some (7 : Nat)) 0
      = Except.ok (some (Sum.inl
          (GenomePropertiesResultsWithMatchesCached sampleFrame sampleFrame sampleFrame 0)))
    ∧ server_get_result_cached_or_default ([] : RedisStore) (0 : Nat) (some "k")
        (some (7 : Nat)) 0 = Except.ok none
    ∧ server_get_result_cached_or_default ([] : RedisStore) (0 : Nat) none
        (some (7 : Nat)) 0 = Except.ok (some (Sum.inr 7)) :=
  ⟨(resolution_precedence Nat Nat framesStore 0 (some 7) 0).1 "k" sampleFrame sampleFrame
      sampleFrame (by decide) (by decide),
   (resolution_precedence Nat Nat [] 0 (some 7) 0).2.1 "k" (by decide) (by decide),
   (resolution_precedence Nat Nat [] 0 (some 7) 0).2.2.1 7 rfl⟩

/-- Claim C9: an empty-string requested token is falsy in Python, so the
resolution operations treat it exactly like an absent token: the store is
never consulted (the outcome is the same for every store and clock) and a
present default is returned. Holds for both source variants. -/
theorem empty_token_is_no_token (τ ρ : Type) (store store2 : RedisStore) (tree tree2 : τ)
    (default_results : Option ρ) (now now2 : Nat) :
    (server_get_result_cached_or_default store tree (some "") default_results now
      = server_get_result_cached_or_default store2 tree2 none default_results now2)
    ∧ (∀ d, default_results = some d →
      server_get_result_cached_or_default store tree (some "") default_results now
        = Except.ok (some (Sum.inr d)))
    ∧ (cachepy_get_result_cached_or_default store tree (some "") default_results now
      = cachepy_get_result_cached_or_default store2 tree2 none default_results now2)
    ∧ (∀ d, default_results = some d →
      cachepy_get_result_cached_or_default store tree (some "") default_results now
        = Except.ok (some (Sum.inr d))) := by
  refine ⟨?_, ?_, ?_, ?_⟩
  · simp [server_get_result_cached_or_default]
  · intro d hd
    simp [server_get_result_cached_or_default, hd]
  · simp [cachepy_get_result_cached_or_default]
  · intro d hd
    simp [cachepy_get_result_cached_or_default, hd]

/-- Witness for claim C9: with an empty-string token and a configured
default, the default is returned even though the store holds only a
corrupt blob that would fail to decode if consulted. -/
theorem empty_token_is_no_token_witness :
    server_get_result_cached_or_default corruptStore (0 : Nat) (some "") (some (7 : Nat)) 0
      = Except.ok (some (Sum.inr 7)) :=
  (empty_token_is_no_token Nat Nat corruptStore [] 0 0 (some 7) 0 0).2.1 7 rfl

/-- Claim C10: the get_fasta route passes the DEFAULT_RESULTS config
object, not PROPERTIES_TREE, as the properties_tree argument of the
resolution, so a result reconstructed from the store has the
default-results object as its tree reference. -/
theorem get_fasta_binds_default_results (cfg : AppConfig) (store : RedisStore)
    (k : String) (p s m : DataFrame) (now : Nat) :
    k ≠ "" → redisGet store k now = some (Blob.frames p s m) →
      server_get_fasta_resolve cfg store (some k) now
        = Except.ok (some (Sum.inl
            (GenomePropertiesResultsWithMatchesCached p s m cfg.DEFAULT_RESULTS)))
      ∧ (GenomePropertiesResultsWithMatchesCached p s m cfg.DEFAULT_RESULTS).tree
          = cfg.DEFAULT_RESULTS := by
  intro hk hget
  constructor
  · simp [server_get_fasta_resolve, server_get_result_cached_or_default,
      server_get_result_from_cache, hk, hget, pdReadMsgpack]
  · rfl

/-- Witness for claim C10 at a concrete store and configuration. -/
theorem get_fasta_binds_default_results_witness :
    server_get_fasta_resolve cfg0 framesStore (some "k") 0
      = Except.ok (some (Sum.inl
          (GenomePropertiesResultsWithMatchesCached sampleFrame sampleFrame sampleFrame
            cfg0.DEFAULT_RESULTS))) :=
  (get_fasta_binds_default_results cfg0 framesStore "k" sampleFrame sampleFrame sampleFrame 0
    (by decide) (by decide)).1

/-! ## Lemmas about the hexadecimal rendering and uuid4 -/

/-- The sixteen lowercase hexadecimal digit characters. -/
def hexLowerAlphabet : List Char := String.data "0123456789abcdef"

theorem hexDigits_length (k : Nat) : ∀ n, (hexDigits k n).length = k := by
  induction k with
  | zero => intro n; rfl
  | succ k ih => intro n; simp [hexDigits, ih]

theorem hexDigitChar_mem_of_lt : ∀ m, m < 16 → hexDigitChar m ∈ hexLowerAlphabet := by
  decide

theorem hexDigits_subset (k : Nat) :
    ∀ n, ∀ c ∈ hexDigits k n, c ∈ hexLowerAlphabet := by
  induction k with
  | zero => intro n c hc; simp [hexDigits] at hc
  | succ k ih =>
    intro n c hc
    simp [hexDigits] at hc
    rcases hc with h | h
    · exact ih (n / 16) c h
    · rw [h]
      exact hexDigitChar_mem_of_lt (n % 16) (Nat.mod_lt n (by decide))
  -- the recursive case needs n only through n / 16 and n % 16

/-- Inverse of hexDigitChar on values below 16. -/
def unhexDigit (c : Char) : Nat :=
  if c.toNat ≥ 97 then c.toNat - 87 else c.toNat - 48

theorem unhexDigit_hexDigitChar : ∀ m, m < 16 → unhexDigit (hexDigitChar m) = m := by
  decide

/-- Reads back a big-endian hexadecimal digit list. -/
def unhexAux (acc : Nat) (l : List Char) : Nat :=
  l.foldl (fun a c => 16 * a + unhexDigit c) acc

theorem unhexAux_hexDigits (k : Nat) :
    ∀ acc n, n < 16 ^ k → unhexAux acc (hexDigits k n) = acc * 16 ^ k + n := by
  induction k with
  | zero =>
    intro acc n h
    have hn : n = 0 := Nat.lt_one_iff.mp h
    simp [hexDigits, unhexAux, hn]
  | succ k ih =>
    intro acc n h
    have hdiv : n / 16 < 16 ^ k := by
      rw [Nat.div_lt_iff_lt_mul (by decide : 0 < 16)]
      calc n < 16 ^ (k + 1) := h
        _ = 16 ^ k * 16 := by rw [Nat.pow_succ]
    have hstep : unhexAux acc (hexDigits (k + 1) n)
        = 16 * unhexAux acc (hexDigits k (n / 16)) + unhexDigit (hexDigitChar (n % 16)) := by
      simp [hexDigits, unhexAux, List.foldl_append]
    rw [hstep, ih acc (n / 16) hdiv,
      unhexDigit_hexDigitChar (n % 16) (Nat.mod_lt n (by decide))]
    have hdm : 16 * (n / 16) + n % 16 = n := Nat.div_add_mod n 16
    calc 16 * (acc * 16 ^ k + n / 16) + n % 16
        = acc * (16 ^ k * 16) + (16 * (n / 16) + n % 16) := by ring
      _ = acc * 16 ^ (k + 1) + n := by rw [hdm, Nat.pow_succ]

theorem sixteen_pow_32 : (16 : Nat) ^ 32 = 2 ^ 128 := by norm_num

theorem uuid4int_lt (r : Nat) : uuid4int r < 2 ^ 128 := by
  have h1 : (r % 2 ^ 128) &&& uuidKeepMask < 2 ^ 128 :=
    Nat.and_lt_two_pow (r % 2 ^ 128) (by decide)
  exact Nat.or_lt_two_pow h1 (by decide)

theorem hex32_inj {x y : Nat} (hx : x < 2 ^ 128) (hy : y < 2 ^ 128)
    (h : hex32 x = hex32 y) : x = y := by
  have h16x : x < 16 ^ 32 := by rw [sixteen_pow_32]; exact hx
  have h16y : y < 16 ^ 32 := by rw [sixteen_pow_32]; exact hy
  have e1 := unhexAux_hexDigits 32 0 x h16x
  have e2 := unhexAux_hexDigits 32 0 y h16y
  simp only [Nat.zero_mul, Nat.zero_add] at e1 e2
  simp only [hex32] at h
  rw [← e1, ← e2, h]

theorem uuidSetMask_and_keep : uuidSetMask &&& uuidKeepMask = 0 := by decide

theorem uuid4int_and_keep (r : Nat) :
    uuid4int r &&& uuidKeepMask = (r % 2 ^ 128) &&& uuidKeepMask := by
  apply Nat.eq_of_testBit_eq
  intro i
  have hz : (uuidSetMask.testBit i && uuidKeepMask.testBit i) = false := by
    have h := congrArg (fun n => n.testBit i) uuidSetMask_and_keep
    simpa [Nat.testBit_and] using h
  simp only [uuid4int, Nat.testBit_and, Nat.testBit_or]
  cases hk : uuidKeepMask.testBit i with
  | false => simp
  | true =>
    have hs : uuidSetMask.testBit i = false := by
      rw [hk] at hz
      simpa using hz
    simp [hs]

/-- Counterexample to claim C8: two distinct 16-byte random draws that
differ only in a variant bit produce the same uuid4 hex token, because
uuid4 overwrites the six version and variant bits of the draw; the token
is therefore determined by only 122 of the 128 random bits. -/
theorem uuid4hex_collides_on_forced_bits :
    uuid4hex 0 = uuid4hex (2 ^ 62) ∧ (0 : Nat) ≠ 2 ^ 62 := by
  constructor
  · decide
  · decide

/-- Claim C8 as amended: the token of both caching operations is
uuid4().hex, 32 lowercase hexadecimal characters rendering a 128-bit
value; it is not derived from the stored content (the same random draw
yields the same token for any result and any store, in both cache.py and
micromeda-server.py); and two calls whose random draws differ anywhere
outside the six forced version and variant bit positions produce
distinct tokens. -/
theorem token_generation (r r1 r2 : Nat)
    (res1 res2 : GenomePropertiesResultsWithMatches GenomePropertiesTree)
    (st1 st2 : RedisStore) (ttl1 ttl2 rand now1 now2 : Nat) :
    ((uuid4hex r).length = 32 ∧ ∀ c ∈ (uuid4hex r).data, c ∈ hexLowerAlphabet)
    ∧ (server_cache_result res1 st1 rand now1).1 = (server_cache_result res2 st2 rand now2).1
    ∧ (cachepy_cache_result res1 st1 ttl1 rand now1).1
        = (cachepy_cache_result res2 st2 ttl2 rand now2).1
    ∧ ((r1 % 2 ^ 128) &&& uuidKeepMask ≠ (r2 % 2 ^ 128) &&& uuidKeepMask →
        uuid4hex r1 ≠ uuid4hex r2) := by
  refine ⟨⟨?_, ?_⟩, rfl, rfl, ?_⟩
  · show (hex32 (uuid4int r)).length = 32
    exact hexDigits_length 32 (uuid4int r)
  · intro c hc
    exact hexDigits_subset 32 (uuid4int r) c hc
  · intro hne heq
    apply hne
    have hlist : hex32 (uuid4int r1) = hex32 (uuid4int r2) := congrArg String.data heq
    have hint : uuid4int r1 = uuid4int r2 :=
      hex32_inj (uuid4int_lt r1) (uuid4int_lt r2) hlist
    rw [← uuid4int_and_keep r1, ← uuid4int_and_keep r2, hint]

/-- Witness for claim C8 as amended: draws 0 and 1 differ in a kept bit
position, so their tokens differ. -/
theorem token_generation_witness : uuid4hex 0 ≠ uuid4hex 1 :=
  (token_generation 0 0 1 sampleResult sampleResult [] [] 0 0 0 0 0).2.2.2 (by decide)

/-- Counterexample to claim C2: the caching operation of
micromeda-server.py (the one its routes call) passes no expiry argument
to redis SET, so the stored entry has no time-to-live: a get performed
long after the nominal 3600 second time-to-live still returns the value
instead of absent. -/
theorem server_cache_never_expires :
    redisGet (server_cache_result sampleResult [] 0 0).2
        (server_cache_result sampleResult [] 0 0).1 1000000
      = some (pdToMsgpack sampleFrame sampleFrame sampleFrame) := by
  decide

/-- Claim C2 as amended: entries stored by cache.py cache_result, which
passes ex equal to cache_ttl, behave as claimed: the blob is retrievable
immediately after the store and every get at or after ttl seconds later
returns absent; entries stored by the micromeda-server.py cache_result
carry no expiry and remain retrievable at every later instant. -/
theorem ttl_semantics (τ : Type) (result : GenomePropertiesResultsWithMatches τ)
    (redis_cache : RedisStore) (cache_ttl rand now later : Nat) :
    (0 < cache_ttl →
      redisGet (cachepy_cache_result result redis_cache cache_ttl rand now).2
          (cachepy_cache_result result redis_cache cache_ttl rand now).1 now
        = some (toSerialization result))
    ∧ (now + cache_ttl ≤ later →
      redisGet (cachepy_cache_result result redis_cache cache_ttl rand now).2
          (cachepy_cache_result result redis_cache cache_ttl rand now).1 later
        = none)
    ∧ redisGet (server_cache_result result redis_cache rand now).2
          (server_cache_result result redis_cache rand now).1 later
        = some (pdToMsgpack result.property_results result.step_results
            result.step_matches) := by
  refine ⟨?_, ?_, ?_⟩
  · intro hpos
    simp [cachepy_cache_result, redisGet, redisSet, List.find?, hpos]
  · intro hle
    have hnot : ¬ later < now + cache_ttl := by omega
    simp [cachepy_cache_result, redisGet, redisSet, List.find?, hnot]
  · simp [server_cache_result, redisGet, redisSet, List.find?]

/-- Witness for claim C2 as amended: a concrete entry stored with a one
second time-to-live is retrievable at the store instant and absent one
second later. -/
theorem ttl_semantics_witness :
    redisGet (cachepy_cache_result sampleResult [] 1 0 0).2
        (cachepy_cache_result sampleResult [] 1 0 0).1 0
      = some (toSerialization sampleResult)
    ∧ redisGet (cachepy_cache_result sampleResult [] 1 0 0).2
        (cachepy_cache_result sampleResult [] 1 0 0).1 1
      = none :=
  ⟨(ttl_semantics GenomePropertiesTree sampleResult [] 1 0 0 0).1 (by decide),
   (ttl_semantics GenomePropertiesTree sampleResult [] 1 0 0 1).2.1 (by decide)⟩

/-- Claim C3: decoding the blob produced by encoding a results object,
with the objects own tree supplied, reproduces the three per-sample
assignment tables exactly and binds the supplied tree: storing a result
with the server cache_result and reading it back through
get_result_from_cache yields a reconstructed object whose
property-level, step-level and step-match tables equal the originals. -/
theorem codec_round_trip (τ : Type) (r : GenomePropertiesResultsWithMatches τ)
    (rand now later : Nat) :
    server_get_result_from_cache (server_cache_result r [] rand now).1
        (server_cache_result r [] rand now).2 r.tree later
      = Except.ok (some (GenomePropertiesResultsWithMatchesCached
          r.property_results r.step_results r.step_matches r.tree))
    ∧ (GenomePropertiesResultsWithMatchesCached
          r.property_results r.step_results r.step_matches r.tree).property_results
        = r.property_results
    ∧ (GenomePropertiesResultsWithMatchesCached
          r.property_results r.step_results r.step_matches r.tree).step_results
        = r.step_results
    ∧ (GenomePropertiesResultsWithMatchesCached
          r.property_results r.step_results r.step_matches r.tree).step_matches
        = r.step_matches
    ∧ (GenomePropertiesResultsWithMatchesCached
          r.property_results r.step_results r.step_matches r.tree).tree = r.tree := by
  refine ⟨?_, rfl, rfl, rfl, rfl⟩
  simp [server_get_result_from_cache, server_cache_result, redisGet, redisSet,
    List.find?, pdToMsgpack, pdReadMsgpack]

/-- Claim C4 exhibits a bug: when the extraction collaborator raises, the
upload route propagates the exception before reaching os.remove, so the
temporary artifact file stays behind. At the failing input, an allowed
filename whose extraction fails, the final state still contains the
saved temporary file. -/
theorem upload_leaks_temp_file_on_extraction_failure :
    (server_upload cfg0 id (fun _ _ => Except.error (ExtractionError.malformed 0))
        "data.sqlite3" 0 0 ⟨[], []⟩).1
      = Except.error (ExtractionError.malformed 0)
    ∧ ((server_upload cfg0 id (fun _ _ => Except.error (ExtractionError.malformed 0))
        "data.sqlite3" 0 0 ⟨[], []⟩).2).files
      = ["/uploads/data.sqlite3"] := by
  constructor
  · decide
  · decide

/-- Claim C5: a disallowed extension is rejected with the 404 response
without invoking the extraction collaborator (the outcome is identical
for every collaborator and the state is untouched); an allowed extension
invokes the collaborator, and a successful extraction is cached under a
fresh token that is returned in the response. -/
theorem upload_rejection_and_extraction (cfg : AppConfig)
    (secure : String → String)
    (extract extract2 : String → GenomePropertiesTree →
      Except ExtractionError (GenomePropertiesResultsWithMatches GenomePropertiesTree))
    (filename : String) (rand now : Nat) (st : ServerState) :
    (allowed_file filename = false →
      server_upload cfg secure extract filename rand now st
          = (Except.ok UploadResponse.uploadFailed404, st)
        ∧ server_upload cfg secure extract filename rand now st
          = server_upload cfg secure extract2 filename rand now st)
    ∧ (∀ r, allowed_file filename = true →
        extract (cfg.UPLOAD_FOLDER ++ "/" ++ secure filename) cfg.PROPERTIES_TREE
          = Except.ok r →
        server_upload cfg secure extract filename rand now st
          = (Except.ok (UploadResponse.resultKey (uuid4hex rand)),
             ⟨redisSet st.redis (uuid4hex rand)
                (pdToMsgpack r.property_results r.step_results r.step_matches) none now,
              st.files⟩)) := by
  constructor
  · intro hnot
    constructor
    · simp [server_upload, hnot]
    · simp [server_upload, hnot]
  · intro r hall hex
    simp [server_upload, hall, hex, server_cache_result, List.erase_cons_head]

/-- Witness for claim C5: a concrete rejected upload and a concrete
accepted upload. -/
theorem upload_rejection_and_extraction_witness :
    server_upload cfg0 id (fun _ _ => Except.ok sampleResult) "virus.exe" 0 0 ⟨[], []⟩
      = (Except.ok UploadResponse.uploadFailed404, ⟨[], []⟩)
    ∧ server_upload cfg0 id (fun _ _ => Except.ok sampleResult) "data.sqlite3" 0 0 ⟨[], []⟩
      = (Except.ok (UploadResponse.resultKey (uuid4hex 0)),
         ⟨redisSet [] (uuid4hex 0) (pdToMsgpack sampleFrame sampleFrame sampleFrame) none 0,
          []⟩) :=
  ⟨((upload_rejection_and_extraction cfg0 id (fun _ _ => Except.ok sampleResult)
      (fun _ _ => Except.ok sampleResult) "virus.exe" 0 0 ⟨[], []⟩).1 (by decide)).1,
   (upload_rejection_and_extraction cfg0 id (fun _ _ => Except.ok sampleResult)
      (fun _ _ => Except.ok sampleResult) "data.sqlite3" 0 0 ⟨[], []⟩).2 sampleResult
      (by decide) rfl⟩

/-- Counterexample to claim C7: with a structurally invalid blob stored
under the requested token, the resolution operation of
micromeda-server.py propagates the decode exception instead of degrading
to the absent outcome. -/
theorem corrupt_blob_is_not_absent :
    server_get_result_cached_or_default corruptStore (0 : Nat) (some "k") (some (7 : Nat)) 0
      = Except.error (DecodeError.invalidFormat 0)
    ∧ server_get_result_cached_or_default corruptStore (0 : Nat) (some "k")
        (some (7 : Nat)) 0 ≠ Except.ok none := by
  constructor
  · decide
  · decide

/-- Claim C7 as amended: a decode failure on the stored blob is not
mapped to absent; in both source variants the error propagates uncaught
out of the resolution operation. Only a missing or expired entry
degrades to absent. -/
theorem decode_error_propagates (τ ρ : Type) (store : RedisStore) (tree : τ)
    (default_results : Option ρ) (k : String) (now : Nat) (b : Blob) (e : DecodeError) :
    (k ≠ "" → redisGet store k now = some b → pdReadMsgpack b = Except.error e →
      server_get_result_cached_or_default store tree (some k) default_results now
        = Except.error e)
    ∧ (k ≠ "" → redisGet store k now = some b →
        loadResultsFromSerialization b tree = Except.error e →
      cachepy_get_result_cached_or_default store tree (some k) default_results now
        = Except.error e) := by
  constructor
  · intro hk hget hdec
    simp [server_get_result_cached_or_default, server_get_result_from_cache, hk, hget, hdec]
  · intro hk hget hdec
    simp [cachepy_get_result_cached_or_default, hk, hget, hdec]

/-- Witness for claim C7 as amended, at the concrete corrupt store. -/
theorem decode_error_propagates_witness :
    cachepy_get_result_cached_or_default corruptStore (0 : Nat) (some "k") (some (7 : Nat)) 0
      = Except.error (DecodeError.invalidFormat 0) :=
  (decode_error_propagates Nat Nat corruptStore 0 (some 7) "k" 0 (Blob.corrupt 0)
    (DecodeError.invalidFormat 0)).2 (by decide) (by decide) (by decide)
